import Mathlib

/-!
Verification of the Polymarket smart-money analyzer core against its
specification.

The development shallowly embeds the repository's TypeScript core into Lean:

* JavaScript numbers are modelled as exact rationals (`ℚ`); `Math.round`,
  the two-decimal rounding idiom `Math.round(x * 100) / 100`, and
  `Math.floor` are modelled exactly (`jsRound`, `round2`, `Int.floor`).
* `Math.log10` is transcendental, so every definition that needs it takes a
  function `log10 : ℚ → ℚ` as an explicit parameter; no theorem below
  depends on its value.
* `Date.now()` is an explicit parameter `now` (milliseconds since epoch);
  `Date` values are their millisecond timestamps.
* Network fetch results are explicit inputs (the code's collaborators are
  adversarial data sources; the embedded functions start where the data is
  in hand, exactly as the fetched shapes are consumed by the source).
* `string.toLowerCase`/`toUpperCase` are modelled per character
  (`jsToLower`/`jsToUpper`), matching the ASCII addresses and outcome
  labels the code handles.

Sources embedded: `src/lib/scoring.ts` (credibility scorer),
`src/lib/signal.ts` (signal generator), `src/lib/analyze.ts` (pipeline:
position mapper, enricher, qualification filter), and the leaderboard
entry validation of `src/lib/polymarket-api.ts`.
-/

/-- `Math.round` of JavaScript: round half toward positive infinity. -/
def jsRound (q : ℚ) : ℤ := ⌊q + 1/2⌋

/-- The `Math.round(x * 100) / 100` two-decimal rounding idiom. -/
def round2 (q : ℚ) : ℚ := (jsRound (q * 100) : ℚ) / 100

/-- The `Math.round(x * 1000) / 1000` three-decimal rounding idiom. -/
def round3 (q : ℚ) : ℚ := (jsRound (q * 1000) : ℚ) / 1000

/-- Model of `String.prototype.toLowerCase` (per-character lowering). -/
def jsToLower (s : String) : String := ⟨s.data.map Char.toLower⟩

/-- Model of `String.prototype.toUpperCase` (per-character raising). -/
def jsToUpper (s : String) : String := ⟨s.data.map Char.toUpper⟩

/-- A holder's side in the market under analysis: the TS union `'YES' | 'NO'`. -/
inductive Side where
  | yes : Side
  | no : Side
deriving DecidableEq, Repr

/-- `ScoreBreakdown` from `src/lib/types.ts`. -/
structure ScoreBreakdown where
  profit : ℚ
  winRate : ℚ
  volume : ℚ
  recency : ℚ
  conviction : ℚ
deriving DecidableEq, Repr

/-- `CredibilityScore` from `src/lib/types.ts`. -/
structure CredibilityScore where
  total : ℚ
  breakdown : ScoreBreakdown
deriving DecidableEq, Repr

/-- `Holder` from `src/lib/types.ts`: an enriched wallet profile.
`lastTradeDate` is the `Date`'s millisecond timestamp. -/
structure Holder where
  address : String
  username : Option String
  totalProfit : ℚ
  totalVolume : ℚ
  totalMarkets : ℚ
  winRate : ℚ
  positionsSampled : ℕ
  lastTradeDate : ℚ
  avgPositionSize : ℚ
  currentPosition : Side
  currentPositionSize : ℚ
  shares : ℚ
deriving DecidableEq, Repr

/-- `ScoredHolder` from `src/lib/types.ts`: a `Holder` plus its score. -/
structure ScoredHolder extends Holder where
  credibilityScore : CredibilityScore
deriving DecidableEq, Repr

/-! ## Credibility scorer (`src/lib/scoring.ts`) -/

/-- `calcProfitScore` of `scoring.ts`:
`if (totalProfit <= 0) return 0;`
`const raw = Math.log10(totalProfit / 1000) * 13;`
`return Math.round(Math.min(40, Math.max(0, raw)) * 100) / 100;`. -/
def calcProfitScore (log10 : ℚ → ℚ) (totalProfit : ℚ) : ℚ :=
  if totalProfit ≤ 0 then 0
  else round2 (min 40 (max 0 (log10 (totalProfit / 1000) * 13)))

/-- `calcWinRateScore` of `scoring.ts`:
`if (totalMarkets === 0) return 0;`
`const sampleWeight = Math.min(1, totalMarkets / 20);`
`const raw = (winRate / 100) * 25 * sampleWeight;`
`return Math.round(Math.max(0, raw) * 100) / 100;`. -/
def calcWinRateScore (winRate totalMarkets : ℚ) : ℚ :=
  if totalMarkets = 0 then 0
  else round2 (max 0 ((winRate / 100) * 25 * min 1 (totalMarkets / 20)))

/-- `calcVolumeScore` of `scoring.ts`:
`if (totalMarkets <= 0) return 0;`
`if (totalMarkets >= 20 && totalMarkets <= 200) return 15;`
`if (totalMarkets < 20) return Math.round((totalMarkets / 20) * 15 * 100) / 100;`
`return 12;`. -/
def calcVolumeScore (totalMarkets : ℚ) : ℚ :=
  if totalMarkets ≤ 0 then 0
  else if 20 ≤ totalMarkets ∧ totalMarkets ≤ 200 then 15
  else if totalMarkets < 20 then round2 ((totalMarkets / 20) * 15)
  else 12

/-- `calcRecencyScore` of `scoring.ts`. The source reads the clock
(`Date.now()`), here the explicit parameter `now`. A last-trade time in
the future returns 10 (benefit of the doubt; the `isNaN` guard of the
source has no counterpart because every `Date` stored by the enricher is
valid, and `ℚ` has no NaN). Otherwise
`daysSince = Math.floor((now - last) / 86400000)` selects the step. -/
def calcRecencyScore (now lastTrade : ℚ) : ℚ :=
  if now < lastTrade then 10
  else
    let daysSince : ℤ := ⌊(now - lastTrade) / 86400000⌋
    if daysSince ≤ 7 then 10
    else if daysSince ≤ 30 then 7
    else if daysSince ≤ 90 then 4
    else 0

/-- `calcConvictionScore` of `scoring.ts`:
`if (avgSize <= 0 || currentSize <= 0) return 0;`
`return Math.round(Math.min(10, (currentSize / avgSize) * 5) * 100) / 100;`. -/
def calcConvictionScore (currentSize avgSize : ℚ) : ℚ :=
  if avgSize ≤ 0 ∨ currentSize ≤ 0 then 0
  else round2 (min 10 ((currentSize / avgSize) * 5))

/-- `calculateCredibilityScore` of `scoring.ts`: the five factors and the
rounded total. `log10` and `now` are the ambient `Math.log10` and
`Date.now()` (see module comment). -/
def calculateCredibilityScore (log10 : ℚ → ℚ) (now : ℚ) (holder : Holder) :
    CredibilityScore :=
  let breakdown : ScoreBreakdown :=
    { profit := calcProfitScore log10 holder.totalProfit
      winRate := calcWinRateScore holder.winRate holder.totalMarkets
      volume := calcVolumeScore holder.totalMarkets
      recency := calcRecencyScore now holder.lastTradeDate
      conviction := calcConvictionScore holder.currentPositionSize holder.avgPositionSize }
  { total := round2 (breakdown.profit + breakdown.winRate + breakdown.volume +
      breakdown.recency + breakdown.conviction)
    breakdown := breakdown }

/-! ## Rounding lemmas -/

theorem round2_nonneg {x : ℚ} (h : 0 ≤ x) : 0 ≤ round2 x := by
  have h1 : (0 : ℤ) ≤ ⌊x * 100 + 1/2⌋ := Int.le_floor.mpr (by push_cast; linarith)
  have h2 : (0 : ℚ) ≤ (⌊x * 100 + 1/2⌋ : ℚ) := by exact_mod_cast h1
  unfold round2 jsRound
  linarith

theorem round2_le_intCast {x : ℚ} {k : ℤ} (h : x ≤ (k : ℚ)) : round2 x ≤ (k : ℚ) := by
  have h1 : ⌊x * 100 + 1/2⌋ ≤ 100 * k := by
    rw [Int.floor_le_iff]
    push_cast
    linarith
  have h2 : (⌊x * 100 + 1/2⌋ : ℚ) ≤ ((100 * k : ℤ) : ℚ) := by exact_mod_cast h1
  unfold round2 jsRound
  rw [div_le_iff₀ (by norm_num : (0:ℚ) < 100)]
  push_cast at h2 ⊢
  linarith

/-! ## Per-factor bounds -/

theorem calcProfitScore_bounds (log10 : ℚ → ℚ) (p : ℚ) :
    0 ≤ calcProfitScore log10 p ∧ calcProfitScore log10 p ≤ 40 := by
  unfold calcProfitScore
  split
  · exact ⟨le_refl 0, by norm_num⟩
  · constructor
    · exact round2_nonneg (le_min (by norm_num) (le_max_left 0 _))
    · exact round2_le_intCast (k := 40) (by exact_mod_cast min_le_left 40 _)

theorem calcWinRateScore_bounds {w : ℚ} (tm : ℚ) (hw0 : 0 ≤ w) (hw1 : w ≤ 100) :
    0 ≤ calcWinRateScore w tm ∧ calcWinRateScore w tm ≤ 25 := by
  unfold calcWinRateScore
  split
  · norm_num
  · constructor
    · exact round2_nonneg (le_max_left 0 _)
    · refine round2_le_intCast (k := 25) ?_
      push_cast
      rw [max_le_iff]
      refine ⟨by norm_num, ?_⟩
      rcases le_total (min 1 (tm / 20)) 0 with hm | hm
      · nlinarith
      · have h1 : min 1 (tm / 20) ≤ 1 := min_le_left _ _
        nlinarith

theorem calcVolumeScore_bounds (tm : ℚ) :
    0 ≤ calcVolumeScore tm ∧ calcVolumeScore tm ≤ 15 := by
  unfold calcVolumeScore
  split
  · norm_num
  · split
    · norm_num
    · split
      · rename_i h0 _ h2
        push_neg at h0
        constructor
        · exact round2_nonneg (by nlinarith)
        · exact round2_le_intCast (k := 15) (by push_cast; nlinarith)
      · norm_num

theorem calcRecencyScore_bounds (now lastTrade : ℚ) :
    0 ≤ calcRecencyScore now lastTrade ∧ calcRecencyScore now lastTrade ≤ 10 := by
  unfold calcRecencyScore
  split
  · norm_num
  · dsimp only
    split
    · norm_num
    · split
      · norm_num
      · split <;> norm_num

theorem calcConvictionScore_bounds (cur avg : ℚ) :
    0 ≤ calcConvictionScore cur avg ∧ calcConvictionScore cur avg ≤ 10 := by
  unfold calcConvictionScore
  split
  · norm_num
  · rename_i h
    push_neg at h
    constructor
    · refine round2_nonneg (le_min (by norm_num) ?_)
      have h1 : 0 < cur / avg := div_pos h.2 h.1
      linarith
    · exact round2_le_intCast (k := 10) (by exact_mod_cast min_le_left 10 _)

/-- C1: for a profile whose `winRate` lies in [0, 100], every component of
the `ScoreBreakdown` returned by `calculateCredibilityScore` lies in
[0, its max] (profit ≤ 40, winRate ≤ 25, volume ≤ 15, recency ≤ 10,
conviction ≤ 10), and the total is the sum of the five components rounded
to two decimals, which always lies in [0, 100]. -/
theorem calculateCredibilityScore_bounds (log10 : ℚ → ℚ) (now : ℚ) (h : Holder)
    (hw0 : 0 ≤ h.winRate) (hw1 : h.winRate ≤ 100) :
    (0 ≤ (calculateCredibilityScore log10 now h).breakdown.profit ∧
      (calculateCredibilityScore log10 now h).breakdown.profit ≤ 40) ∧
    (0 ≤ (calculateCredibilityScore log10 now h).breakdown.winRate ∧
      (calculateCredibilityScore log10 now h).breakdown.winRate ≤ 25) ∧
    (0 ≤ (calculateCredibilityScore log10 now h).breakdown.volume ∧
      (calculateCredibilityScore log10 now h).breakdown.volume ≤ 15) ∧
    (0 ≤ (calculateCredibilityScore log10 now h).breakdown.recency ∧
      (calculateCredibilityScore log10 now h).breakdown.recency ≤ 10) ∧
    (0 ≤ (calculateCredibilityScore log10 now h).breakdown.conviction ∧
      (calculateCredibilityScore log10 now h).breakdown.conviction ≤ 10) ∧
    (calculateCredibilityScore log10 now h).total =
      round2 ((calculateCredibilityScore log10 now h).breakdown.profit +
        (calculateCredibilityScore log10 now h).breakdown.winRate +
        (calculateCredibilityScore log10 now h).breakdown.volume +
        (calculateCredibilityScore log10 now h).breakdown.recency +
        (calculateCredibilityScore log10 now h).breakdown.conviction) ∧
    0 ≤ (calculateCredibilityScore log10 now h).total ∧
    (calculateCredibilityScore log10 now h).total ≤ 100 := by
  have hp := calcProfitScore_bounds log10 h.totalProfit
  have hw := calcWinRateScore_bounds h.totalMarkets hw0 hw1
  have hv := calcVolumeScore_bounds h.totalMarkets
  have hr := calcRecencyScore_bounds now h.lastTradeDate
  have hc := calcConvictionScore_bounds h.currentPositionSize h.avgPositionSize
  simp only [calculateCredibilityScore]
  refine ⟨hp, hw, hv, hr, hc, trivial, ?_, ?_⟩
  · exact round2_nonneg (by linarith [hp.1, hw.1, hv.1, hr.1, hc.1])
  · exact round2_le_intCast (k := 100)
      (by push_cast; linarith [hp.2, hw.2, hv.2, hr.2, hc.2])

/-- A concrete profile for the C1 witness. -/
def c1Holder : Holder :=
  { address := "0xaaa", username := none, totalProfit := 10000, totalVolume := 0,
    totalMarkets := 40, winRate := 60, positionsSampled := 40, lastTradeDate := 0,
    avgPositionSize := 200, currentPosition := Side.yes, currentPositionSize := 300,
    shares := 300 }

/-- Witness for `calculateCredibilityScore_bounds` at a concrete profile. -/
theorem calculateCredibilityScore_bounds_witness :
    (0 ≤ c1Holder.winRate ∧ c1Holder.winRate ≤ 100) ∧
    (0 ≤ (calculateCredibilityScore (fun _ => 1) 0 c1Holder).total ∧
      (calculateCredibilityScore (fun _ => 1) 0 c1Holder).total ≤ 100) := by
  refine ⟨⟨by norm_num [c1Holder], by norm_num [c1Holder]⟩, ?_, ?_⟩
  · exact (calculateCredibilityScore_bounds (fun _ => 1) 0 c1Holder
      (by norm_num [c1Holder]) (by norm_num [c1Holder])).2.2.2.2.2.2.1
  · exact (calculateCredibilityScore_bounds (fun _ => 1) 0 c1Holder
      (by norm_num [c1Holder]) (by norm_num [c1Holder])).2.2.2.2.2.2.2

/-! ## C9: determinism of the scorer -/

/-- A blank profile used to exhibit the scorer's dependence on the clock. -/
def c9Profile : Holder :=
  { address := "0xabc", username := none, totalProfit := 0, totalVolume := 0,
    totalMarkets := 0, winRate := 0, positionsSampled := 0, lastTradeDate := 0,
    avgPositionSize := 0, currentPosition := Side.yes, currentPositionSize := 0,
    shares := 0 }

/-- C9 counterexample: the scorer is not a function of the profile alone.
Scoring the very same profile at two different clock readings (7 days vs
200 days after its last trade) yields different recency components and
different totals, because `calcRecencyScore` reads `Date.now()`. -/
theorem calculateCredibilityScore_clock_dependent :
    calculateCredibilityScore (fun _ => 0) (7 * 86400000) c9Profile ≠
      calculateCredibilityScore (fun _ => 0) (200 * 86400000) c9Profile := by
  intro heq
  have h1 : (calculateCredibilityScore (fun _ => 0) (7 * 86400000) c9Profile).breakdown.recency = 10 := by
    norm_num [calculateCredibilityScore, calcRecencyScore, c9Profile]
  have h2 : (calculateCredibilityScore (fun _ => 0) (200 * 86400000) c9Profile).breakdown.recency = 0 := by
    norm_num [calculateCredibilityScore, calcRecencyScore, c9Profile,
      Int.floor_intCast]
  rw [heq] at h1
  rw [h1] at h2
  norm_num at h2

/-- C9 as amended: for a fixed clock reading (and the ambient `Math.log10`),
scoring the same profile twice yields bit-identical results — the scorer
is a deterministic pure function of the profile and the evaluation time. -/
theorem calculateCredibilityScore_deterministic (log10 : ℚ → ℚ) (now : ℚ)
    (h : Holder) :
    calculateCredibilityScore log10 now h = calculateCredibilityScore log10 now h :=
  rfl

/-! ## Signal generator (`src/lib/signal.ts`) -/

/-- The TS union `'BUY YES' | 'BUY NO' | 'INCONCLUSIVE'`. -/
inductive SignalKind where
  | buyYes : SignalKind
  | buyNo : SignalKind
  | inconclusive : SignalKind
deriving DecidableEq, Repr

/-- `HolderSummary` from `src/lib/types.ts`. -/
structure HolderSummary where
  address : String
  username : Option String
  score : ℚ
  scoreBreakdown : ScoreBreakdown
  position : Side
  size : ℚ
  profit : ℚ
  winRate : ℚ
  totalMarkets : ℚ
deriving DecidableEq, Repr

/-- `SignalData` from `src/lib/types.ts`. -/
structure SignalData where
  yesHolders : ℕ
  noHolders : ℕ
  yesValue : ℚ
  noValue : ℚ
  yesPercentage : ℚ
  whaleDetected : Bool
  topHolders : List HolderSummary
deriving DecidableEq, Repr

/-- `TradingSignal` from `src/lib/types.ts`. -/
structure TradingSignal where
  signal : SignalKind
  confidence : ℤ
  reasoning : String
  data : Option SignalData
deriving DecidableEq, Repr

/-- The `Math.round(x * 10) / 10` one-decimal rounding idiom. -/
def round1 (q : ℚ) : ℚ := (jsRound (q * 10) : ℚ) / 10

/-- Model of `Number.prototype.toFixed(0)`: nearest integer, ties toward
positive infinity. -/
def toFixed0 (q : ℚ) : String := toString (jsRound q)

/-- Model of `Number.prototype.toFixed(1)`: one decimal digit, nearest,
ties toward positive infinity. -/
def toFixed1 (q : ℚ) : String :=
  let m : ℤ := jsRound (q * 10)
  if m < 0 then "-" ++ toString ((-m) / 10) ++ "." ++ toString ((-m) % 10)
  else toString (m / 10) ++ "." ++ toString (m % 10)

/-- `formatDollars` of `signal.ts`. -/
def formatDollars (n : ℚ) : String :=
  if n ≥ 1000000 then toFixed1 (n / 1000000) ++ "M"
  else if n ≥ 1000 then toFixed1 (n / 1000) ++ "K"
  else toFixed0 n

/-- `shortenAddress` of `signal.ts`. The source's `!addr` guard is
subsumed by the length test (an empty string has length 0 < 10). -/
def shortenAddress (addr : String) : String :=
  if addr.length < 10 then addr
  else addr.take 6 ++ "..." ++ addr.drop (addr.length - 4)

/-- The credibility-weighted value of a holder:
`h.currentPositionSize * (h.credibilityScore.total / 100)`. -/
def weightedValue (h : ScoredHolder) : ℚ :=
  h.currentPositionSize * (h.credibilityScore.total / 100)

/-- The `yesList` local of `generateTradingSignal`. -/
def gsYesList (topHolders : List ScoredHolder) : List ScoredHolder :=
  topHolders.filter (fun h => h.currentPosition == Side.yes)

/-- The `noList` local of `generateTradingSignal`. -/
def gsNoList (topHolders : List ScoredHolder) : List ScoredHolder :=
  topHolders.filter (fun h => h.currentPosition == Side.no)

/-- The `yesValue` local: credibility-weighted YES total. -/
def gsYesValue (topHolders : List ScoredHolder) : ℚ :=
  (gsYesList topHolders).foldl (fun sum h => sum + weightedValue h) 0

/-- The `noValue` local: credibility-weighted NO total. -/
def gsNoValue (topHolders : List ScoredHolder) : ℚ :=
  (gsNoList topHolders).foldl (fun sum h => sum + weightedValue h) 0

/-- The `totalValue` local. -/
def gsTotalValue (topHolders : List ScoredHolder) : ℚ :=
  gsYesValue topHolders + gsNoValue topHolders

/-- The `yesValueRaw` local: unweighted YES dollar total. -/
def gsYesValueRaw (topHolders : List ScoredHolder) : ℚ :=
  (gsYesList topHolders).foldl (fun sum h => sum + h.currentPositionSize) 0

/-- The `noValueRaw` local: unweighted NO dollar total. -/
def gsNoValueRaw (topHolders : List ScoredHolder) : ℚ :=
  (gsNoList topHolders).foldl (fun sum h => sum + h.currentPositionSize) 0

/-- The `yesPercentage` local. -/
def gsYesPercentage (topHolders : List ScoredHolder) : ℚ :=
  gsYesValue topHolders / gsTotalValue topHolders

/-- The `whale` local: the first holder whose weighted value strictly
exceeds `totalValue * 0.4`. -/
def gsWhale (topHolders : List ScoredHolder) : Option ScoredHolder :=
  topHolders.find? (fun h => decide (weightedValue h > gsTotalValue topHolders * 0.4))

/-- The `dominance` local. -/
def gsDominance (topHolders : List ScoredHolder) : ℚ :=
  max (gsYesPercentage topHolders) (1 - gsYesPercentage topHolders)

/-- The base confidence chosen from the dominance brackets. -/
def gsBaseConfidence (topHolders : List ScoredHolder) : ℤ :=
  if gsDominance topHolders > 0.80 then 9
  else if gsDominance topHolders > 0.70 then 7
  else if gsDominance topHolders > 0.60 then 5
  else 3

/-- The confidence after the whale reduction
(`if (whale) confidence = Math.max(1, confidence - 3)`). -/
def gsConfAfterWhale (topHolders : List ScoredHolder) : ℤ :=
  if (gsWhale topHolders).isSome then max 1 (gsBaseConfidence topHolders - 3)
  else gsBaseConfidence topHolders

/-- The final confidence after the count-agreement boost
(`if (countRatio >= 0.80 && topHolders.length >= 5) confidence = Math.min(10, confidence + 1)`). -/
def gsConfidence (topHolders : List ScoredHolder) : ℤ :=
  if ((max (gsYesList topHolders).length (gsNoList topHolders).length : ℚ) /
        (topHolders.length : ℚ) ≥ 0.80) ∧ 5 ≤ topHolders.length
  then min 10 (gsConfAfterWhale topHolders + 1)
  else gsConfAfterWhale topHolders

/-- The signal decision of `generateTradingSignal`. -/
def gsSignalKind (topHolders : List ScoredHolder) : SignalKind :=
  if gsYesPercentage topHolders ≥ 0.65 ∧ gsConfidence topHolders ≥ 5 then .buyYes
  else if gsYesPercentage topHolders ≤ 0.35 ∧ gsConfidence topHolders ≥ 5 then .buyNo
  else .inconclusive

/-- The reasoning string of `generateTradingSignal`. -/
def gsReasoning (topHolders : List ScoredHolder) : String :=
  let base := toString (gsYesList topHolders).length ++ " of " ++
    toString topHolders.length ++ " top holders (" ++
    toString (jsRound (gsYesPercentage topHolders * 100)) ++
    "% by credibility-weighted value) are in YES, with $" ++
    formatDollars (gsYesValueRaw topHolders) ++ " in YES positions vs $" ++
    formatDollars (gsNoValueRaw topHolders) ++ " in NO positions. "
  let whaleClause :=
    match gsWhale topHolders with
    | some w => "⚠️ Whale Alert: One holder controls " ++
        toString (jsRound (weightedValue w / gsTotalValue topHolders * 100)) ++
        "% of analyzed value — confidence reduced. "
    | none => ""
  let concClause :=
    if gsSignalKind topHolders = SignalKind.inconclusive then
      if gsDominance topHolders < 0.60 then
        "The market is split among smart money — no clear directional edge."
      else "Leaning signal detected but confidence threshold not met."
    else ""
  base ++ whaleClause ++ concClause

/-- The per-holder summaries of `generateTradingSignal`. -/
def gsHolderSummaries (topHolders : List ScoredHolder) : List HolderSummary :=
  topHolders.map fun h =>
    { address := shortenAddress h.address
      username := h.username
      score := h.credibilityScore.total
      scoreBreakdown := h.credibilityScore.breakdown
      position := h.currentPosition
      size := round2 h.currentPositionSize
      profit := round2 h.totalProfit
      winRate := round1 h.winRate
      totalMarkets := h.totalMarkets }

/-- The `data` record of `generateTradingSignal`. -/
def gsData (topHolders : List ScoredHolder) : SignalData :=
  { yesHolders := (gsYesList topHolders).length
    noHolders := (gsNoList topHolders).length
    yesValue := round2 (gsYesValueRaw topHolders)
    noValue := round2 (gsNoValueRaw topHolders)
    yesPercentage := round3 (gsYesPercentage topHolders)
    whaleDetected := (gsWhale topHolders).isSome
    topHolders := gsHolderSummaries topHolders }

/-- `generateTradingSignal` of `signal.ts`. Each local constant of the
source is the correspondingly named `gs…` definition above. -/
def generateTradingSignal (topHolders : List ScoredHolder) : TradingSignal :=
  if topHolders.length < 3 then
    { signal := .inconclusive, confidence := 0
      reasoning := "Only " ++ toString topHolders.length ++
        " holder(s) meet the criteria. Need at least 3 for a meaningful signal."
      data := none }
  else if gsTotalValue topHolders = 0 then
    { signal := .inconclusive, confidence := 0
      reasoning := "Total position value is $0. Cannot generate signal."
      data := none }
  else
    { signal := gsSignalKind topHolders
      confidence := gsConfidence topHolders
      reasoning := gsReasoning topHolders
      data := some (gsData topHolders) }

/-- C2: for at least 3 scored wallets with nonzero combined weighted value,
`generateTradingSignal` returns BUY YES exactly when the weighted YES share
is ≥ 0.65 and the final (post-adjustment) confidence is ≥ 5, BUY NO exactly
when the share is ≤ 0.35 and the confidence is ≥ 5, and INCONCLUSIVE
otherwise; the returned confidence is that final confidence. -/
theorem generateTradingSignal_decision (hs : List ScoredHolder)
    (h3 : 3 ≤ hs.length) (hnz : gsTotalValue hs ≠ 0) :
    ((generateTradingSignal hs).signal = SignalKind.buyYes ↔
      gsYesPercentage hs ≥ 0.65 ∧ gsConfidence hs ≥ 5) ∧
    ((generateTradingSignal hs).signal = SignalKind.buyNo ↔
      gsYesPercentage hs ≤ 0.35 ∧ gsConfidence hs ≥ 5) ∧
    ((generateTradingSignal hs).signal = SignalKind.inconclusive ↔
      ¬(gsYesPercentage hs ≥ 0.65 ∧ gsConfidence hs ≥ 5) ∧
      ¬(gsYesPercentage hs ≤ 0.35 ∧ gsConfidence hs ≥ 5)) ∧
    (generateTradingSignal hs).confidence = gsConfidence hs := by
  have hlt : ¬ hs.length < 3 := by omega
  have hc : (0.35 : ℚ) < 0.65 := by norm_num
  simp only [generateTradingSignal, if_neg hlt, if_neg hnz, gsSignalKind]
  by_cases hA : gsYesPercentage hs ≥ 0.65 ∧ gsConfidence hs ≥ 5
  · have hnB : ¬(gsYesPercentage hs ≤ 0.35 ∧ gsConfidence hs ≥ 5) := by
      rintro ⟨hb, -⟩
      have := hA.1
      linarith
    rw [if_pos hA]
    exact ⟨by simp [hA], by simp [hnB], by simp [hA], trivial⟩
  · by_cases hB : gsYesPercentage hs ≤ 0.35 ∧ gsConfidence hs ≥ 5
    · rw [if_neg hA, if_pos hB]
      exact ⟨by simp [hA], by simp [hB], by simp [hB], trivial⟩
    · rw [if_neg hA, if_neg hB]
      exact ⟨by simp [hA], by simp [hB], by simp [hA, hB], trivial⟩

/-- A scored holder with the given address, side, position size and score
total (remaining profile fields blank; the signal generator reads only
side, size and score). -/
def mkScoredHolder (addr : String) (pos : Side) (size : ℚ) (scoreTotal : ℚ) :
    ScoredHolder :=
  { address := addr, username := none, totalProfit := 0, totalVolume := 0,
    totalMarkets := 0, winRate := 0, positionsSampled := 0, lastTradeDate := 0,
    avgPositionSize := 0, currentPosition := pos, currentPositionSize := size,
    shares := size,
    credibilityScore :=
      { total := scoreTotal
        breakdown :=
          { profit := 0, winRate := 0, volume := 0, recency := 0, conviction := 0 } } }

/-- Three unanimous YES holders (weighted values 100 each) for the C2 witness. -/
def c2list : List ScoredHolder :=
  [mkScoredHolder "0xaa1" Side.yes 100 100, mkScoredHolder "0xaa2" Side.yes 100 100,
   mkScoredHolder "0xaa3" Side.yes 100 100]

/-- Witness for `generateTradingSignal_decision` at a concrete input. -/
theorem generateTradingSignal_decision_witness :
    3 ≤ c2list.length ∧ gsTotalValue c2list ≠ 0 ∧
    ((generateTradingSignal c2list).signal = SignalKind.buyYes ↔
      gsYesPercentage c2list ≥ 0.65 ∧ gsConfidence c2list ≥ 5) := by
  have h1 : (3 : ℕ) ≤ c2list.length := by norm_num [c2list]
  have h2 : gsTotalValue c2list ≠ 0 := by
    norm_num [gsTotalValue, gsYesValue, gsNoValue, gsYesList, gsNoList, c2list,
      mkScoredHolder, weightedValue, List.filter, List.foldl]
  exact ⟨h1, h2, (generateTradingSignal_decision c2list h1 h2).1⟩

/-- C4: under the same as-analyzed conditions, the returned data's whale
flag is set iff some wallet's credibility-weighted value strictly exceeds
40% of the total weighted value (a wallet at exactly 40% never triggers
it), and when set the confidence is reduced by 3 with a floor of 1
(before the count-agreement boost). -/
theorem generateTradingSignal_whaleFlag (hs : List ScoredHolder)
    (h3 : 3 ≤ hs.length) (hnz : gsTotalValue hs ≠ 0) :
    (generateTradingSignal hs).data = some (gsData hs) ∧
    ((gsData hs).whaleDetected = true ↔
      ∃ h ∈ hs, weightedValue h > gsTotalValue hs * 0.4) ∧
    ((gsData hs).whaleDetected = true →
      gsConfAfterWhale hs = max 1 (gsBaseConfidence hs - 3)) ∧
    ((gsData hs).whaleDetected = false →
      gsConfAfterWhale hs = gsBaseConfidence hs) := by
  have hlt : ¬ hs.length < 3 := by omega
  refine ⟨by simp [generateTradingSignal, if_neg hlt, if_neg hnz], ?_, ?_, ?_⟩
  · simp [gsData, gsWhale, List.find?_isSome]
  · intro hw
    simp only [gsData] at hw
    simp [gsConfAfterWhale, hw]
  · intro hw
    simp only [gsData] at hw
    simp [gsConfAfterWhale, hw]

/-- Three holders of which the first (weighted value 500 of 700 total)
is a whale, for the C4 witness. -/
def c4list : List ScoredHolder :=
  [mkScoredHolder "0xbb1" Side.yes 500 100, mkScoredHolder "0xbb2" Side.yes 100 100,
   mkScoredHolder "0xbb3" Side.no 100 100]

/-- Witness for `generateTradingSignal_whaleFlag` at a concrete input. -/
theorem generateTradingSignal_whaleFlag_witness :
    3 ≤ c4list.length ∧ gsTotalValue c4list ≠ 0 ∧
    ((gsData c4list).whaleDetected = true ↔
      ∃ h ∈ c4list, weightedValue h > gsTotalValue c4list * 0.4) := by
  have h1 : (3 : ℕ) ≤ c4list.length := by norm_num [c4list]
  have h2 : gsTotalValue c4list ≠ 0 := by
    norm_num [gsTotalValue, gsYesValue, gsNoValue, gsYesList, gsNoList, c4list,
      mkScoredHolder, weightedValue, List.filter, List.foldl]
  exact ⟨h1, h2, (generateTradingSignal_whaleFlag c4list h1 h2).2.1⟩

/-- The 5-wallet input of C5: credibility-weighted values
[400, 200, 150, 150, 100], the first three YES, the last two NO. -/
def c5list : List ScoredHolder :=
  [mkScoredHolder "0xcc1" Side.yes 400 100, mkScoredHolder "0xcc2" Side.yes 200 100,
   mkScoredHolder "0xcc3" Side.yes 150 100, mkScoredHolder "0xcc4" Side.no 150 100,
   mkScoredHolder "0xcc5" Side.no 100 100]

/-- C5 counterexample: on the claimed input (weighted values
[400, 200, 150, 150, 100], YES/YES/YES/NO/NO, so weighted-YES = 750,
weighted-NO = 250, total = 1000, yesShare = dominance = 0.75) the base
confidence is not 5: dominance 0.75 falls in the `> 0.70` bracket, which
the source maps to 7. -/
theorem c5_base_confidence_cex :
    c5list.map weightedValue = [400, 200, 150, 150, 100] ∧
    gsYesValue c5list = 750 ∧ gsNoValue c5list = 250 ∧
    gsTotalValue c5list = 1000 ∧ gsYesPercentage c5list = 0.75 ∧
    gsDominance c5list = 0.75 ∧ ¬ gsBaseConfidence c5list = 5 := by
  refine ⟨?_, ?_, ?_, ?_, ?_, ?_, ?_⟩ <;>
    norm_num [c5list, mkScoredHolder, weightedValue, gsYesValue, gsNoValue,
      gsYesList, gsNoList, gsTotalValue, gsYesPercentage, gsDominance,
      gsBaseConfidence, List.filter, List.foldl, max_def]

/-- C5 as amended: on that input the base confidence is 7 (the `> 0.70`
dominance bracket). -/
theorem c5_base_confidence :
    gsBaseConfidence c5list = 7 := by
  norm_num [c5list, mkScoredHolder, weightedValue, gsYesValue, gsNoValue,
    gsYesList, gsNoList, gsTotalValue, gsYesPercentage, gsDominance,
    gsBaseConfidence, List.filter, List.foldl, max_def]

/-! ## Position mapper (`mapHoldersToPositions` of `src/lib/analyze.ts`) -/

/-- `RawHolder` from `src/lib/types.ts`. -/
structure RawHolder where
  proxyWallet : String
  amount : ℚ
  username : Option String
deriving DecidableEq, Repr

/-- `HolderResponse` from `src/lib/types.ts`. -/
structure HolderResponse where
  token : String
  holders : List RawHolder
deriving DecidableEq, Repr

/-- `MarketInfo` from `src/lib/types.ts`. `outcomeForToken` is a JS object
modelled as its insertion list (later bindings for the same key win). -/
structure MarketInfo where
  id : String
  question : String
  conditionId : String
  slug : String
  outcomes : List String
  outcomePrices : List ℚ
  clobTokenIds : List String
  outcomeForToken : List (String × String)
  volume : ℚ
  liquidity : ℚ
  active : Bool
  closed : Bool
  endDate : String
deriving DecidableEq, Repr

/-- JS object lookup on an insertion list: the last binding wins. -/
def dictLookup (d : List (String × String)) (k : String) : Option String :=
  (d.reverse.find? (fun p => p.1 == k)).map (fun p => p.2)

/-- The `priceForOutcome` dictionary of `mapHoldersToPositions`:
built from `outcomes[i] → outcomePrices[i] ?? 0.5`, looked up with a
`?? 0.5` default. -/
def priceForOutcome (market : MarketInfo) (name : String) : ℚ :=
  match (List.range market.outcomes.length).reverse.find?
      (fun i => market.outcomes.get? i == some name) with
  | some i => (market.outcomePrices.get? i).getD 0.5
  | none => 0.5

/-- The partial wallet records (`Partial<Holder>`) the mapper pushes:
address, username, position, dollar size, raw share count. -/
structure MappedHolder where
  address : String
  username : Option String
  currentPosition : Side
  currentPositionSize : ℚ
  shares : ℚ
deriving DecidableEq, Repr

/-- The deterministic outcome name for a listing: the `outcomeForToken`
entry for its token, provided it is truthy (present and nonempty). -/
def resolvedOutcome (market : MarketInfo) (resp : HolderResponse) : Option String :=
  match dictLookup market.outcomeForToken resp.token with
  | some name => if name = "" then none else some name
  | none => none

/-- The listing's position: `outcomeName.toUpperCase() === 'YES'` when the
token resolves, otherwise the index-based fallback (first listing = YES). -/
def listingPosition (market : MarketInfo) (index : ℕ) (resp : HolderResponse) : Side :=
  match resolvedOutcome market resp with
  | some name => if jsToUpper name = "YES" then Side.yes else Side.no
  | none => if index = 0 then Side.yes else Side.no

/-- The listing's outcome name used for the price lookup: the resolved
name, or `market.outcomes[index] ?? (index === 0 ? 'Yes' : 'No')`. -/
def listingOutcomeName (market : MarketInfo) (index : ℕ) (resp : HolderResponse) : String :=
  match resolvedOutcome market resp with
  | some name => name
  | none => (market.outcomes.get? index).getD (if index = 0 then "Yes" else "No")

/-- Whether the listing fell back to the index-based guess
(`usedFallback = true` in the source). -/
def listingUsedFallback (market : MarketInfo) (resp : HolderResponse) : Bool :=
  (resolvedOutcome market resp).isNone

/-- The record pushed for one raw holder. `shareCount = rawHolder.amount || 0`
is the identity on `ℚ` (`0 || 0` is `0`), so `shares` is `rh.amount`. -/
def mkMappedHolder (position : Side) (price : ℚ) (rh : RawHolder) : MappedHolder :=
  { address := rh.proxyWallet
    username := rh.username
    currentPosition := position
    currentPositionSize := rh.amount * price
    shares := rh.amount }

/-- The mapper's mutable state: the output list, the `seenAddresses` set
(modelled as a list), and the `usedFallback` flag. -/
structure MapAcc where
  holders : List MappedHolder
  seen : List String
  usedFallback : Bool
deriving Repr

/-- The body of the inner holder loop: skip an address already seen
(exact string match), otherwise push the record and remember the address. -/
def dedupStep (a : MapAcc) (r : MappedHolder) : MapAcc :=
  if r.address ∈ a.seen then a
  else { a with holders := a.holders ++ [r], seen := r.address :: a.seen }

/-- Processing of one indexed listing: resolve position and price, update
the fallback flag, then run the holder loop. -/
def mapStep (market : MarketInfo) (acc : MapAcc) (p : ℕ × HolderResponse) : MapAcc :=
  let position := listingPosition market p.1 p.2
  let price := priceForOutcome market (listingOutcomeName market p.1 p.2)
  p.2.holders.foldl
    (fun a rh => dedupStep a (mkMappedHolder position price rh))
    { acc with usedFallback := acc.usedFallback || listingUsedFallback market p.2 }

/-- `mapHoldersToPositions` of `analyze.ts`: fold the listings (with their
indices) through `mapStep`, then emit the fallback warning if needed.
Returns `(holders, mappingWarnings)`. -/
def mapHoldersToPositions (responses : List HolderResponse) (market : MarketInfo) :
    List MappedHolder × List String :=
  let final := responses.enum.foldl (mapStep market) ⟨[], [], false⟩
  (final.holders,
   if final.usedFallback then
     ["Position mapping used index-based fallback for some tokens — YES/NO detection may be less accurate."]
   else [])

/-- The records one listing contributes, before deduplication. -/
def listingRecords (market : MarketInfo) (index : ℕ) (resp : HolderResponse) :
    List MappedHolder :=
  resp.holders.map (mkMappedHolder (listingPosition market index resp)
    (priceForOutcome market (listingOutcomeName market index resp)))

/-- All records of all listings in processing order, before deduplication. -/
def flatRecords (responses : List HolderResponse) (market : MarketInfo) :
    List MappedHolder :=
  responses.enum.flatMap (fun p => listingRecords market p.1 p.2)

/-- First-seen-wins deduplication by exact address, starting from a set of
already-seen addresses. -/
def dedupFirst (seen : List String) : List MappedHolder → List MappedHolder
  | [] => []
  | r :: t =>
    if r.address ∈ seen then dedupFirst seen t
    else r :: dedupFirst (r.address :: seen) t

/-- The seen-address set after processing a record list. -/
def seenAfter (seen : List String) : List MappedHolder → List String
  | [] => seen
  | r :: t =>
    if r.address ∈ seen then seenAfter seen t
    else seenAfter (r.address :: seen) t

/-! ## Deduplication lemmas -/

theorem dedupFirst_mem_not_seen : ∀ (l : List MappedHolder) (seen : List String)
    (r : MappedHolder), r ∈ dedupFirst seen l → r.address ∉ seen := by
  intro l
  induction l with
  | nil => intro seen r h; simp [dedupFirst] at h
  | cons x t ih =>
    intro seen r h
    by_cases hx : x.address ∈ seen
    · rw [dedupFirst, if_pos hx] at h
      exact ih seen r h
    · rw [dedupFirst, if_neg hx] at h
      rcases List.mem_cons.mp h with rfl | h2
      · exact hx
      · intro hs
        exact (ih _ r h2) (List.mem_cons_of_mem _ hs)

theorem dedupFirst_addr_nodup : ∀ (l : List MappedHolder) (seen : List String),
    ((dedupFirst seen l).map (fun r => r.address)).Nodup := by
  intro l
  induction l with
  | nil => intro seen; simp [dedupFirst]
  | cons x t ih =>
    intro seen
    by_cases hx : x.address ∈ seen
    · rw [dedupFirst, if_pos hx]
      exact ih seen
    · rw [dedupFirst, if_neg hx]
      rw [List.map_cons, List.nodup_cons]
      refine ⟨?_, ih _⟩
      intro hmem
      rcases List.mem_map.mp hmem with ⟨r, hr, ha⟩
      exact (dedupFirst_mem_not_seen t _ r hr) (by rw [ha]; exact List.mem_cons_self _ _)

theorem dedupFirst_find : ∀ (l : List MappedHolder) (seen : List String)
    (r : MappedHolder), r ∈ dedupFirst seen l →
    l.find? (fun x => x.address == r.address) = some r := by
  intro l
  induction l with
  | nil => intro seen r h; simp [dedupFirst] at h
  | cons x t ih =>
    intro seen r h
    by_cases hx : x.address ∈ seen
    · rw [dedupFirst, if_pos hx] at h
      have hne : x.address ≠ r.address := by
        intro he
        exact (dedupFirst_mem_not_seen t seen r h) (he ▸ hx)
      rw [List.find?_cons_of_neg _ (by simp [hne]), ih seen r h]
    · rw [dedupFirst, if_neg hx] at h
      rcases List.mem_cons.mp h with rfl | h2
      · rw [List.find?_cons_of_pos _ (by simp)]
      · have hrn := dedupFirst_mem_not_seen t _ r h2
        have hne : x.address ≠ r.address := by
          intro he
          exact hrn (by rw [← he]; exact List.mem_cons_self _ _)
        rw [List.find?_cons_of_neg _ (by simp [hne]), ih _ r h2]

theorem dedupFirst_covers : ∀ (l : List MappedHolder) (seen : List String)
    (x : MappedHolder), x ∈ l →
    x.address ∈ seen ∨ ∃ r ∈ dedupFirst seen l, r.address = x.address := by
  intro l
  induction l with
  | nil => intro seen x h; simp at h
  | cons y t ih =>
    intro seen x h
    by_cases hy : y.address ∈ seen
    · rw [dedupFirst, if_pos hy]
      rcases List.mem_cons.mp h with rfl | h2
      · exact Or.inl hy
      · exact ih seen x h2
    · rw [dedupFirst, if_neg hy]
      rcases List.mem_cons.mp h with rfl | h2
      · exact Or.inr ⟨x, List.mem_cons_self _ _, rfl⟩
      · rcases ih (y.address :: seen) x h2 with hmem | ⟨r, hr, ha⟩
        · rcases List.mem_cons.mp hmem with he | hs
          · exact Or.inr ⟨y, List.mem_cons_self _ _, he.symm⟩
          · exact Or.inl hs
        · exact Or.inr ⟨r, List.mem_cons_of_mem _ hr, ha⟩

theorem dedupFirst_append : ∀ (l1 l2 : List MappedHolder) (seen : List String),
    dedupFirst seen (l1 ++ l2) =
      dedupFirst seen l1 ++ dedupFirst (seenAfter seen l1) l2 := by
  intro l1
  induction l1 with
  | nil => intro l2 seen; simp [dedupFirst, seenAfter]
  | cons x t ih =>
    intro l2 seen
    by_cases hx : x.address ∈ seen
    · rw [List.cons_append, dedupFirst, if_pos hx, dedupFirst, if_pos hx,
        seenAfter, if_pos hx]
      exact ih l2 seen
    · rw [List.cons_append, dedupFirst, if_neg hx, dedupFirst, if_neg hx,
        seenAfter, if_neg hx, List.cons_append, ih]

theorem seenAfter_append : ∀ (l1 l2 : List MappedHolder) (seen : List String),
    seenAfter seen (l1 ++ l2) = seenAfter (seenAfter seen l1) l2 := by
  intro l1
  induction l1 with
  | nil => intro l2 seen; simp [seenAfter]
  | cons x t ih =>
    intro l2 seen
    by_cases hx : x.address ∈ seen
    · rw [List.cons_append, seenAfter, if_pos hx, seenAfter, if_pos hx]
      exact ih l2 seen
    · rw [List.cons_append, seenAfter, if_neg hx, seenAfter, if_neg hx]
      exact ih l2 _

theorem foldl_dedupStep : ∀ (l : List MappedHolder) (a : MapAcc),
    l.foldl dedupStep a =
      { holders := a.holders ++ dedupFirst a.seen l
        seen := seenAfter a.seen l
        usedFallback := a.usedFallback } := by
  intro l
  induction l with
  | nil => intro a; simp [dedupFirst, seenAfter]
  | cons x t ih =>
    intro a
    rw [List.foldl_cons]
    by_cases hx : x.address ∈ a.seen
    · have hstep : dedupStep a x = a := by rw [dedupStep, if_pos hx]
      rw [hstep, ih, dedupFirst, if_pos hx, seenAfter, if_pos hx]
    · have hstep : dedupStep a x =
          { holders := a.holders ++ [x], seen := x.address :: a.seen
            usedFallback := a.usedFallback } := by
        rw [dedupStep, if_neg hx]
      rw [hstep, ih, dedupFirst, if_neg hx, seenAfter, if_neg hx]
      simp [List.append_assoc]

theorem foldl_dedupStep_map (position : Side) (price : ℚ) :
    ∀ (rhs : List RawHolder) (a : MapAcc),
    rhs.foldl (fun a rh => dedupStep a (mkMappedHolder position price rh)) a =
      (rhs.map (mkMappedHolder position price)).foldl dedupStep a := by
  intro rhs
  induction rhs with
  | nil => intro a; rfl
  | cons x t ih =>
    intro a
    rw [List.foldl_cons, List.map_cons, List.foldl_cons]
    exact ih _

theorem mapStep_spec (market : MarketInfo) (acc : MapAcc) (p : ℕ × HolderResponse) :
    mapStep market acc p =
      { holders := acc.holders ++ dedupFirst acc.seen (listingRecords market p.1 p.2)
        seen := seenAfter acc.seen (listingRecords market p.1 p.2)
        usedFallback := acc.usedFallback || listingUsedFallback market p.2 } := by
  rw [mapStep, listingRecords, foldl_dedupStep_map, foldl_dedupStep]

theorem mapFold_spec (market : MarketInfo) : ∀ (ps : List (ℕ × HolderResponse)) (a : MapAcc),
    (ps.foldl (mapStep market) a).holders =
      a.holders ++ dedupFirst a.seen (ps.flatMap (fun p => listingRecords market p.1 p.2)) ∧
    (ps.foldl (mapStep market) a).seen =
      seenAfter a.seen (ps.flatMap (fun p => listingRecords market p.1 p.2)) := by
  intro ps
  induction ps with
  | nil => intro a; simp [dedupFirst, seenAfter]
  | cons p t ih =>
    intro a
    rw [List.foldl_cons, mapStep_spec, List.flatMap_cons, dedupFirst_append,
      seenAfter_append]
    obtain ⟨h1, h2⟩ := ih
      { holders := a.holders ++ dedupFirst a.seen (listingRecords market p.1 p.2)
        seen := seenAfter a.seen (listingRecords market p.1 p.2)
        usedFallback := a.usedFallback || listingUsedFallback market p.2 }
    constructor
    · rw [h1]
      simp [List.append_assoc]
    · rw [h2]

theorem mapHoldersToPositions_eq_dedupFirst (responses : List HolderResponse)
    (market : MarketInfo) :
    (mapHoldersToPositions responses market).1 =
      dedupFirst [] (flatRecords responses market) := by
  have h := (mapFold_spec market responses.enum ⟨[], [], false⟩).1
  rw [mapHoldersToPositions]
  rw [h]
  simp [flatRecords]

/-- C6 as amended: `mapHoldersToPositions` produces exactly one record per
unique wallet address under EXACT (case-sensitive) string comparison: the
output addresses are pairwise distinct, every output record is the
first-encountered record for its address in processing order (so it
carries the first listing's position and dollar size), and every address
that occurs in some listing is represented. -/
theorem mapHoldersToPositions_dedup (responses : List HolderResponse)
    (market : MarketInfo) :
    (((mapHoldersToPositions responses market).1.map (fun r => r.address)).Nodup) ∧
    (∀ r ∈ (mapHoldersToPositions responses market).1,
      (flatRecords responses market).find? (fun x => x.address == r.address) = some r) ∧
    (∀ x ∈ flatRecords responses market,
      ∃ r ∈ (mapHoldersToPositions responses market).1, r.address = x.address) := by
  rw [mapHoldersToPositions_eq_dedupFirst]
  refine ⟨dedupFirst_addr_nodup _ _, ?_, ?_⟩
  · intro r hr
    exact dedupFirst_find _ _ r hr
  · intro x hx
    rcases dedupFirst_covers _ [] x hx with h | h
    · simp at h
    · exact h

/-- A concrete two-listing market for the C6 instances. -/
def c6market : MarketInfo :=
  { id := "m1", question := "q", conditionId := "cond1", slug := "s1",
    outcomes := ["Yes", "No"], outcomePrices := [1, 1],
    clobTokenIds := ["t1", "t2"],
    outcomeForToken := [("t1", "Yes"), ("t2", "No")],
    volume := 0, liquidity := 0, active := true, closed := false, endDate := "" }

/-- A raw YES-listing holder whose wallet is spelled `"0xAB"`. -/
def c6rh1 : RawHolder := { proxyWallet := "0xAB", amount := 5, username := none }

/-- A raw NO-listing holder: the same wallet spelled `"0xab"`. -/
def c6rh2 : RawHolder := { proxyWallet := "0xab", amount := 3, username := none }

/-- The YES listing of the C6 instance. -/
def c6resp1 : HolderResponse := { token := "t1", holders := [c6rh1] }

/-- The NO listing of the C6 instance. -/
def c6resp2 : HolderResponse := { token := "t2", holders := [c6rh2] }

/-- Concrete listings in which the same wallet appears in the YES listing
as `"0xAB"` and in the NO listing as `"0xab"` (same address up to case). -/
def c6responses : List HolderResponse := [c6resp1, c6resp2]

/-- C6 counterexample: deduplication is NOT case-insensitive. Two listings
carrying the same address in different letter case produce two distinct
records, because `seenAddresses` is a `Set` of exact strings. -/
theorem mapHoldersToPositions_case_cex :
    jsToLower "0xAB" = jsToLower "0xab" ∧ "0xAB" ≠ "0xab" ∧
    ((mapHoldersToPositions c6responses c6market).1.map (fun r => r.address)) =
      ["0xAB", "0xab"] :=
  ⟨by decide, by decide, rfl⟩

/-- Witness for `mapHoldersToPositions_dedup` at the concrete input. -/
theorem mapHoldersToPositions_dedup_witness :
    (((mapHoldersToPositions c6responses c6market).1.map (fun r => r.address)).Nodup) ∧
    (∃ r ∈ (mapHoldersToPositions c6responses c6market).1, r.address = "0xAB") := by
  refine ⟨(mapHoldersToPositions_dedup c6responses c6market).1, ?_⟩
  have hcover := (mapHoldersToPositions_dedup c6responses c6market).2.2
  have hflat : flatRecords c6responses c6market =
      [mkMappedHolder Side.yes 1 c6rh1, mkMappedHolder Side.no 1 c6rh2] := rfl
  have hmem : mkMappedHolder Side.yes 1 c6rh1 ∈ flatRecords c6responses c6market := by
    rw [hflat]
    exact List.mem_cons_self _ _
  have h := hcover _ hmem
  simpa [mkMappedHolder, c6rh1] using h

/-! ## Profile enricher (`enrichSingleHolder`, `enrichHolders` of `src/lib/analyze.ts`) -/

/-- `UserPosition` from `src/lib/types.ts`. -/
structure UserPosition where
  conditionId : String
  title : String
  outcomeIndex : ℤ
  size : ℚ
  initialValue : ℚ
  currentValue : ℚ
  cashPnl : ℚ
  percentPnl : ℚ
  redeemable : Bool
  mergeable : Bool
  curPrice : ℚ
deriving DecidableEq, Repr

/-- A runtime activity timestamp: either a unix-epoch number or a date
string. A string carries the millisecond value its `new Date(ts)` parse
yields (`none` when the parse is invalid); the date-string grammar itself
is not modelled. -/
inductive JsTimestamp where
  | num (value : ℚ) : JsTimestamp
  | str (text : String) (parsedMs : Option ℚ) : JsTimestamp
deriving DecidableEq, Repr

/-- One activity event (`{ timestamp: string }` in the TS type; the field
may be absent or falsy at runtime, hence the `Option`). -/
structure ActivityEvent where
  timestamp : Option JsTimestamp
deriving DecidableEq, Repr

/-- JS truthiness of `activity[0].timestamp`: a missing value, the number
`0` and the empty string are falsy. -/
def tsTruthy : Option JsTimestamp → Bool
  | none => false
  | some (JsTimestamp.num v) => decide (v ≠ 0)
  | some (JsTimestamp.str s _) => decide (s ≠ "")

/-- The validated result of `fetchUserLeaderboard`
(`{ pnl, volume, marketsTraded }`). -/
structure LeaderboardResult where
  pnl : ℚ
  volume : ℚ
  marketsTraded : ℚ
deriving DecidableEq, Repr

/-- The three per-wallet fetch results consumed by `enrichSingleHolder`
(leaderboard entry, up to 50 positions, up to 5 activity events) — each
independently optional or empty on failure. -/
structure FetchResults where
  leaderboard : Option LeaderboardResult
  positions : List UserPosition
  activity : List ActivityEvent
deriving DecidableEq, Repr

/-- `enrichSingleHolder` of `analyze.ts`, as a pure function of the
mapped record, its three fetch results, and the current time `nowDate`
(milliseconds; the source's `new Date()`). The source guards
`partial.address || ''`, `partial.currentPosition || 'YES'`,
`partial.currentPositionSize || 0`, `partial.shares || 0` and
`p.cashPnl || 0` are identities on the modelled (always-populated)
fields: `s || ''` is `s` and `q || 0` is `q` on `ℚ`. -/
def enrichSingleHolder (mapped : MappedHolder) (fr : FetchResults) (nowDate : ℚ) :
    Holder :=
  let totalProfit : ℚ :=
    match fr.leaderboard with
    | some lb => lb.pnl
    | none =>
      if 0 < fr.positions.length then
        let rawPnl := fr.positions.foldl (fun sum p => sum + p.cashPnl) 0
        if |rawPnl| < 50000000 then rawPnl else 0
      else 0
  let lbMarkets : ℚ := match fr.leaderboard with
    | some lb => lb.marketsTraded
    | none => 0
  let totalMarkets : ℚ :=
    if lbMarkets ≠ 0 then lbMarkets else (fr.positions.length : ℚ)
  let winRate : ℚ :=
    if 0 < fr.positions.length then
      ((fr.positions.filter (fun p => decide (0 < p.cashPnl))).length : ℚ) /
        (fr.positions.length : ℚ) * 100
    else 0
  let avgPositionSize : ℚ :=
    if 0 < fr.positions.length then
      let totalSize := fr.positions.foldl
        (fun sum p => sum + |if p.initialValue ≠ 0 then p.initialValue else p.size|) 0
      let avg := totalSize / (fr.positions.length : ℚ)
      if avg > 10000000 then 0 else avg
    else 0
  let lastTradeDate : ℚ :=
    match fr.activity with
    | ev :: _ =>
      if tsTruthy ev.timestamp then
        match ev.timestamp with
        | some (JsTimestamp.num v) => if v > 1000000000000 then v else v * 1000
        | some (JsTimestamp.str _ (some ms)) => ms
        | _ => 0
      else if 0 < fr.positions.length then nowDate else 0
    | [] => if 0 < fr.positions.length then nowDate else 0
  { address := mapped.address
    username := mapped.username
    totalProfit := totalProfit
    totalVolume := (match fr.leaderboard with | some lb => lb.volume | none => 0)
    totalMarkets := totalMarkets
    winRate := winRate
    positionsSampled := fr.positions.length
    lastTradeDate := lastTradeDate
    avgPositionSize := avgPositionSize
    currentPosition := mapped.currentPosition
    currentPositionSize := mapped.currentPositionSize
    shares := mapped.shares }

/-- `enrichHolders` of `analyze.ts`. The source fetches in batches of 10
with `Promise.all`, which preserves input order, so the result list is the
in-order map of `enrichSingleHolder`; `fetchOf` supplies each wallet's
fetch results by address. Returns `(enriched, enrichmentWarnings)`. -/
def enrichHolders (fetchOf : String → FetchResults) (nowDate : ℚ)
    (mappedHolders : List MappedHolder) : List Holder × List String :=
  let results := mappedHolders.map
    (fun mh => enrichSingleHolder mh (fetchOf mh.address) nowDate)
  let incompleteProfiles :=
    (results.filter (fun h => decide (h.totalMarkets = 0) && decide (h.totalProfit = 0))).length
  (results,
   if 0 < incompleteProfiles then
     [toString incompleteProfiles ++ " of " ++ toString mappedHolders.length ++
       " holders had incomplete profile data."]
   else [])

/-! ## Qualification filter and pipeline (`analyzeMarket` of `src/lib/analyze.ts`) -/

/-- The qualification predicate of step 7:
`h.currentPositionSize >= MIN_POSITION_SIZE || h.totalProfit >= MIN_PROFIT_ALT`
with `MIN_POSITION_SIZE = 100` and `MIN_PROFIT_ALT = 1_000`. -/
def qualifies (h : Holder) : Bool :=
  decide (100 ≤ h.currentPositionSize) || decide (1000 ≤ h.totalProfit)

/-- Step 9's `.sort((a, b) => b.credibilityScore.total - a.credibilityScore.total)`:
a stable descending sort by total score (ES2019 `sort` is stable). -/
def sortByScore (scoredHolders : List ScoredHolder) : List ScoredHolder :=
  scoredHolders.mergeSort
    (fun a b => decide (b.credibilityScore.total ≤ a.credibilityScore.total))

/-- Steps 7–10 of `analyzeMarket`: qualification filter, the
low-data warning, the zero-qualified short-circuit, scoring, ranking to
the top 20, and signal generation. Returns the signal and the warnings
this stage appends. -/
def analyzeFromEnriched (log10 : ℚ → ℚ) (now : ℚ) (enriched : List Holder) :
    TradingSignal × List String :=
  let qualifiedHolders := enriched.filter qualifies
  let holdersWithNoData :=
    (enriched.filter (fun h => decide (h.totalProfit = 0) && decide (h.totalMarkets = 0))).length
  let stepWarnings :=
    if (holdersWithNoData : ℚ) > (enriched.length : ℚ) * 0.5 then
      [toString holdersWithNoData ++ " of " ++ toString enriched.length ++
        " holders had no historical data — scores are based primarily on position size."]
    else []
  if qualifiedHolders.length = 0 then
    ({ signal := .inconclusive, confidence := 0
       reasoning := "No holders have sufficient position size or profit in this market. " ++
         toString enriched.length ++ " holders were analyzed."
       data := none }, stepWarnings)
  else
    let scoredHolders : List ScoredHolder := qualifiedHolders.map
      (fun h => { toHolder := h, credibilityScore := calculateCredibilityScore log10 now h })
    let topHolders := (sortByScore scoredHolders).take 20
    (generateTradingSignal topHolders, stepWarnings)

/-- `AnalysisResult` from `src/lib/types.ts`. -/
structure AnalysisResult where
  market : MarketInfo
  signal : TradingSignal
  warnings : List String
deriving DecidableEq, Repr

/-- `analyzeMarket` of `analyze.ts` from the point the holder responses
are in hand (steps 4–10; the earlier steps are URL parsing and the event
fetch, performed by collaborators). `priorWarnings` carries the warnings
accumulated before this point. Every path of this region returns a
result; no path raises. -/
def analyzeFromHolders (log10 : ℚ → ℚ) (now : ℚ) (market : MarketInfo)
    (fetchOf : String → FetchResults) (priorWarnings : List String)
    (holderResponses : List HolderResponse) : AnalysisResult :=
  if holderResponses.length = 0 then
    { market := market
      warnings := ["No holder data available from the API."]
      signal := { signal := .inconclusive, confidence := 0
                  reasoning := "No holder data available for this market."
                  data := none } }
  else
    let mapped := mapHoldersToPositions holderResponses market
    let warnings1 := priorWarnings ++ mapped.2
    if mapped.1.length = 0 then
      { market := market
        warnings := warnings1
        signal := { signal := .inconclusive, confidence := 0
                    reasoning := "No holders found for this market."
                    data := none } }
    else
      let er := enrichHolders fetchOf now mapped.1
      let res := analyzeFromEnriched log10 now er.1
      { market := market
        warnings := (warnings1 ++ er.2) ++ res.2
        signal := res.1 }

/-- C3: in the pipeline, an enriched wallet is kept for scoring iff its
current position size is at least the $100 floor or its total profit is
at least the $1,000 alternative floor; when zero wallets qualify, the
stage returns (rather than throwing) an INCONCLUSIVE signal with
confidence 0 whose reasoning string cites how many wallets were examined. -/
theorem analyzeFromEnriched_qualification (log10 : ℚ → ℚ) (now : ℚ)
    (enriched : List Holder) :
    (∀ h : Holder, h ∈ enriched.filter qualifies ↔
      h ∈ enriched ∧ (100 ≤ h.currentPositionSize ∨ 1000 ≤ h.totalProfit)) ∧
    ((enriched.filter qualifies).length = 0 →
      (analyzeFromEnriched log10 now enriched).1 =
        { signal := SignalKind.inconclusive, confidence := 0
          reasoning := "No holders have sufficient position size or profit in this market. " ++
            toString enriched.length ++ " holders were analyzed."
          data := none }) := by
  constructor
  · intro h
    rw [List.mem_filter]
    simp [qualifies]
  · intro hq
    simp only [analyzeFromEnriched]
    rw [if_pos hq]

/-- A wallet below both qualification floors ($50 position, $0 profit). -/
def c3holder : Holder :=
  { address := "0xee1", username := none, totalProfit := 0, totalVolume := 0,
    totalMarkets := 0, winRate := 0, positionsSampled := 0, lastTradeDate := 0,
    avgPositionSize := 0, currentPosition := Side.yes, currentPositionSize := 50,
    shares := 50 }

/-- Witness for `analyzeFromEnriched_qualification` at a concrete input. -/
theorem analyzeFromEnriched_qualification_witness :
    ([c3holder].filter qualifies).length = 0 ∧
    (analyzeFromEnriched (fun _ => 0) 0 [c3holder]).1 =
      { signal := SignalKind.inconclusive, confidence := 0
        reasoning := "No holders have sufficient position size or profit in this market. " ++
          toString ([c3holder] : List Holder).length ++ " holders were analyzed."
        data := none } := by
  have hq : ([c3holder].filter qualifies).length = 0 := by
    norm_num [qualifies, c3holder, List.filter]
  exact ⟨hq, (analyzeFromEnriched_qualification (fun _ => 0) 0 [c3holder]).2 hq⟩

/-- C7 counterexample: with zero holder listings the analysis does not
fail — it returns an AnalysisResult whose signal is INCONCLUSIVE with
confidence 0 and whose warnings note the missing holder data. No
`InvalidMarketData` (or any other) error exists on this path in the
source: the branch is a plain `return`. -/
theorem analyzeFromHolders_no_listings_cex :
    analyzeFromHolders (fun _ => 0) 0 c6market (fun _ => ⟨none, [], []⟩) [] [] =
      { market := c6market
        warnings := ["No holder data available from the API."]
        signal := { signal := SignalKind.inconclusive, confidence := 0
                    reasoning := "No holder data available for this market."
                    data := none } } := rfl

/-- C7 as amended: whenever the holder-listing provider supplies no
listings, the pipeline short-circuits to a returned INCONCLUSIVE signal
with confidence 0 and a data-availability warning, instead of raising an
error. -/
theorem analyzeFromHolders_no_listings (log10 : ℚ → ℚ) (now : ℚ)
    (market : MarketInfo) (fetchOf : String → FetchResults)
    (priorWarnings : List String) :
    analyzeFromHolders log10 now market fetchOf priorWarnings [] =
      { market := market
        warnings := ["No holder data available from the API."]
        signal := { signal := SignalKind.inconclusive, confidence := 0
                    reasoning := "No holder data available for this market."
                    data := none } } := rfl

/-- C8 as amended: when no leaderboard entry is used and at least one
position is sampled, the wallet's totalProfit is the sum of the sampled
positions' realized PnL, except that the sum is discarded to 0 exactly
when its absolute value is AT LEAST the $50,000,000 ceiling — the
source's guard `Math.abs(rawPnl) < 50_000_000` is strict, so a sum of
exactly $50M is already discarded. -/
theorem enrichSingleHolder_totalProfit (mapped : MappedHolder)
    (fr : FetchResults) (nowDate : ℚ) (hlb : fr.leaderboard = none)
    (hpos : 0 < fr.positions.length) :
    (|fr.positions.foldl (fun sum p => sum + p.cashPnl) 0| < 50000000 →
      (enrichSingleHolder mapped fr nowDate).totalProfit =
        fr.positions.foldl (fun sum p => sum + p.cashPnl) 0) ∧
    (50000000 ≤ |fr.positions.foldl (fun sum p => sum + p.cashPnl) 0| →
      (enrichSingleHolder mapped fr nowDate).totalProfit = 0) := by
  have hmain : (enrichSingleHolder mapped fr nowDate).totalProfit =
      (if |fr.positions.foldl (fun sum p => sum + p.cashPnl) 0| < 50000000
       then fr.positions.foldl (fun sum p => sum + p.cashPnl) 0 else 0) := by
    simp only [enrichSingleHolder, hlb, if_pos hpos]
  constructor
  · intro habs
    rw [hmain, if_pos habs]
  · intro habs
    rw [hmain, if_neg (not_lt.mpr habs)]

/-- A sampled position whose realized PnL is exactly $50,000,000. -/
def c8pos : UserPosition :=
  { conditionId := "c", title := "t", outcomeIndex := 0, size := 10,
    initialValue := 10, currentValue := 0, cashPnl := 50000000, percentPnl := 0,
    redeemable := false, mergeable := false, curPrice := 0 }

/-- Fetch results with no leaderboard entry and the single $50M position. -/
def c8fetch : FetchResults := { leaderboard := none, positions := [c8pos], activity := [] }

/-- A mapped record for the C8 instances. -/
def c8mapped : MappedHolder :=
  { address := "0xdd1", username := none, currentPosition := Side.yes,
    currentPositionSize := 500, shares := 500 }

/-- C8 counterexample: a sampled-PnL sum of exactly $50,000,000 does NOT
exceed the ceiling, yet the source discards it (strict `< 50_000_000`
guard): totalProfit is 0, not the sum the claim predicts. -/
theorem enrichSingleHolder_totalProfit_cex :
    c8fetch.leaderboard = none ∧
    c8fetch.positions.foldl (fun sum p => sum + p.cashPnl) 0 = 50000000 ∧
    (enrichSingleHolder c8mapped c8fetch 0).totalProfit = 0 ∧
    ¬ (enrichSingleHolder c8mapped c8fetch 0).totalProfit = 50000000 := by
  refine ⟨rfl, by norm_num [c8fetch, c8pos, List.foldl], ?_, ?_⟩ <;>
    norm_num [enrichSingleHolder, c8fetch, c8pos, c8mapped, List.foldl, abs]

/-- A sampled position with an ordinary $1,000 realized PnL. -/
def c8posB : UserPosition :=
  { conditionId := "c", title := "t", outcomeIndex := 0, size := 10,
    initialValue := 10, currentValue := 0, cashPnl := 1000, percentPnl := 0,
    redeemable := false, mergeable := false, curPrice := 0 }

/-- Fetch results with no leaderboard entry and the single $1K position. -/
def c8fetchB : FetchResults := { leaderboard := none, positions := [c8posB], activity := [] }

/-- Witness for `enrichSingleHolder_totalProfit` at a concrete input. -/
theorem enrichSingleHolder_totalProfit_witness :
    c8fetchB.leaderboard = none ∧ 0 < c8fetchB.positions.length ∧
    (enrichSingleHolder c8mapped c8fetchB 0).totalProfit =
      c8fetchB.positions.foldl (fun sum p => sum + p.cashPnl) 0 := by
  refine ⟨rfl, by norm_num [c8fetchB], ?_⟩
  exact (enrichSingleHolder_totalProfit c8mapped c8fetchB 0 rfl
    (by norm_num [c8fetchB])).1
    (by norm_num [c8fetchB, c8posB, List.foldl])

/-! ## Leaderboard entry validation (`fetchUserLeaderboard` of `src/lib/polymarket-api.ts`) -/

/-- The duck-typed raw leaderboard entry whose fields
`fetchUserLeaderboard` probes. -/
structure RawLeaderboardEntry where
  proxyWallet : Option String
  pnl : Option ℚ
  profit : Option ℚ
  vol : Option ℚ
  volume : Option ℚ
  marketsTraded : Option ℚ
  markets : Option ℚ
deriving DecidableEq, Repr

/-- Model of `parseInt(x, 10)` on a numeric value: truncation toward 0. -/
def jsParseInt (q : ℚ) : ℚ := ((q.num.tdiv (q.den : ℤ) : ℤ) : ℚ)

/-- The entry-validation and extraction step of `fetchUserLeaderboard`
(`polymarket-api.ts`), as a function of the requested address and the
normalized entries list (the HTTP call, caching, the array-vs-wrapped
normalization and the catch-all are collaborator plumbing; `parseFloat`
of an already numeric field is the identity). Returns `null` for an
empty list or for an entry carrying a nonempty wallet that does not match
the requested address case-insensitively. -/
def fetchUserLeaderboard (userAddress : String)
    (entries : List RawLeaderboardEntry) : Option LeaderboardResult :=
  match entries with
  | [] => none
  | entry :: _ =>
    let returnedWallet := jsToLower (entry.proxyWallet.getD "")
    if returnedWallet ≠ "" ∧ returnedWallet ≠ jsToLower userAddress then none
    else some
      { pnl := entry.pnl.getD (entry.profit.getD 0)
        volume := entry.vol.getD (entry.volume.getD 0)
        marketsTraded := jsParseInt (entry.marketsTraded.getD (entry.markets.getD 0)) }

/-- C10: with a nonempty entries list, the first entry is discarded iff
its lowercased wallet field is nonempty and differs from the lowercased
requested address; an entry whose wallet field is missing or empty is
accepted, and its pnl, volume and marketsTraded are attributed to the
requested wallet even though the address match cannot be verified. -/
theorem fetchUserLeaderboard_validation (userAddress : String)
    (entry : RawLeaderboardEntry) (rest : List RawLeaderboardEntry) :
    (fetchUserLeaderboard userAddress (entry :: rest) = none ↔
      jsToLower (entry.proxyWallet.getD "") ≠ "" ∧
      jsToLower (entry.proxyWallet.getD "") ≠ jsToLower userAddress) ∧
    ((entry.proxyWallet = none ∨ entry.proxyWallet = some "") →
      fetchUserLeaderboard userAddress (entry :: rest) =
        some { pnl := entry.pnl.getD (entry.profit.getD 0)
               volume := entry.vol.getD (entry.volume.getD 0)
               marketsTraded := jsParseInt (entry.marketsTraded.getD (entry.markets.getD 0)) }) := by
  constructor
  · by_cases hc : jsToLower (entry.proxyWallet.getD "") ≠ "" ∧
        jsToLower (entry.proxyWallet.getD "") ≠ jsToLower userAddress
    · simp only [fetchUserLeaderboard, if_pos hc]
      simpa using hc
    · simp only [fetchUserLeaderboard, if_neg hc]
      simpa using hc
  · intro hw
    have he : entry.proxyWallet.getD "" = "" := by
      rcases hw with h | h <;> simp [h]
    have hl : jsToLower (entry.proxyWallet.getD "") = "" := by
      rw [he]
      rfl
    have hc : ¬ (jsToLower (entry.proxyWallet.getD "") ≠ "" ∧
        jsToLower (entry.proxyWallet.getD "") ≠ jsToLower userAddress) := by
      rw [hl]
      simp
    simp only [fetchUserLeaderboard, if_neg hc]

/-- A leaderboard entry with a missing wallet field. -/
def c10entry : RawLeaderboardEntry :=
  { proxyWallet := none, pnl := some 777, profit := none, vol := none,
    volume := some 42, marketsTraded := some 9, markets := none }

/-- Witness for `fetchUserLeaderboard_validation` at a concrete input. -/
theorem fetchUserLeaderboard_validation_witness :
    (c10entry.proxyWallet = none ∨ c10entry.proxyWallet = some "") ∧
    fetchUserLeaderboard "0xUserAddr" [c10entry] =
      some { pnl := c10entry.pnl.getD (c10entry.profit.getD 0)
             volume := c10entry.vol.getD (c10entry.volume.getD 0)
             marketsTraded := jsParseInt (c10entry.marketsTraded.getD (c10entry.markets.getD 0)) } := by
  refine ⟨Or.inl rfl, ?_⟩
  exact (fetchUserLeaderboard_validation "0xUserAddr" c10entry []).2 (Or.inl rfl)
